import Mathlib

/-!
Verification of the `use-shared-state` synchronization engine.

This file shallowly embeds the engine's source modules and proves or refutes
the specification claims about them:

* `utils.ts`   : key classification, namespaced storage keys, safe JSON codec
* `defaults.ts`: `createSafeDefault`
* `storage.ts` : the `storage` adapter (`get` / `set` / `remove`) over a
  fallible `localStorage`
* `state.ts`   : the shared cache, `getFromMemoryOrStorage`, `updateValue`
  (both the plain revision and the hydration-gated revision), the hydration
  gate (`onHydrated` / the mark-hydrated transition)
* `index.ts`   : the cross-tab `handleStorageChange` signal handler
* the lite-SWR subscription registry (`subscribe` / `notify`)

JavaScript `undefined` (the absence-marker) is modelled as `Option.none`;
JSON-representable values are the inductive `Value`, with `Value.vCyclic`
standing for a value (such as a cyclic structure) on which `JSON.stringify`
throws. The process-wide `Map` objects are modelled as association lists
with JavaScript `Map.set` semantics (replace in place, else append).
-/

namespace USS

/-- A JSON-style runtime value. `vCyclic` models a value on which
`JSON.stringify` throws (e.g. a cyclic object graph); every other
constructor is serializable. Numbers are modelled as integers. -/
inductive Value where
  | vNull : Value
  | vBool (b : Bool) : Value
  | vInt (n : Int) : Value
  | vStr (s : String) : Value
  | vArr (items : List Value) : Value
  | vObj (fields : List (String × Value)) : Value
  | vCyclic : Value
deriving Repr

/-- A JavaScript value slot: `none` is `undefined` (the absence-marker). -/
abbrev JSVal : Type := Option Value

/- Association lists with JavaScript `Map.set` semantics: replace the
   first binding with the same key, otherwise append at the end. -/

/-- Model of `Map.set`: replace an existing binding in place, else append. -/
def alistSet (key : String) (v : α) : List (String × α) → List (String × α)
  | [] => [(key, v)]
  | (k, w) :: rest =>
      if k = key then (key, v) :: rest else (k, w) :: alistSet key v rest

/-- Model of `Map.delete`. -/
def alistRemove (key : String) : List (String × α) → List (String × α)
  | [] => []
  | (k, w) :: rest =>
      if k = key then rest else (k, w) :: alistRemove key rest

theorem lookup_cons (m k : String) (w : α) (tl : List (String × α)) :
    List.lookup m ((k, w) :: tl) = if m = k then some w else List.lookup m tl := by
  by_cases h : m = k
  · simp [List.lookup, h]
  · simp [List.lookup, h, show (m == k) = false from beq_eq_false_iff_ne.mpr h]

theorem lookup_alistSet (m key : String) (v : α) (xs : List (String × α)) :
    List.lookup m (alistSet key v xs) =
      if m = key then some v else List.lookup m xs := by
  induction xs with
  | nil =>
      by_cases h : m = key <;> simp [alistSet, lookup_cons, h]
  | cons hd tl ih =>
      obtain ⟨k, w⟩ := hd
      by_cases hk : k = key
      · subst hk
        by_cases hm : m = k <;> simp [alistSet, lookup_cons, hm]
      · by_cases hm : m = k
        · subst hm
          simp [alistSet, lookup_cons, hk]
        · simp [alistSet, lookup_cons, hk, hm, ih]

/- ---------------------------------------------------------------------
   utils.ts : key classification and namespaced storage keys
   --------------------------------------------------------------------- -/

/-- Constant `PERSISTENT_KEY_PREFIX` from `types.ts` (the sentinel character). -/
def persistentKeyMark : String := "@"

/-- Constant `LOCALSTORAGE_PREFIX` from `types.ts` (the durable-store namespace). -/
def localStorageNamespace : String := "shared@"

/-- Model of `String.prototype.startsWith`, on the character sequence. -/
def strStartsWith (s p : String) : Bool :=
  p.data.isPrefixOf s.data

/-- Model of `String.prototype.slice(1)`: the string without its first character. -/
def strDropFirst (s : String) : String :=
  String.mk (s.data.drop 1)

/-- Source `isPersistentKey`: a key is persistent iff it starts with the sentinel. -/
def isPersistentKey (key : String) : Bool :=
  strStartsWith key persistentKeyMark

/-- Source `getLocalStorageKey`: the namespaced durable key
`<namespace><key-without-sentinel>` for persistent keys, identity otherwise. -/
def getLocalStorageKey (key : String) : String :=
  if isPersistentKey key then localStorageNamespace ++ strDropFirst key else key

/- ---------------------------------------------------------------------
   The JSON codec backing `JSON.stringify` / `JSON.parse`.
   `JSON.stringify` is modelled as a recursive printer that fails (throws)
   exactly when the value contains `vCyclic`; `JSON.parse` as a fueled
   recursive-descent reader of the same textual format.
   --------------------------------------------------------------------- -/

/-- Escape one character for a JSON string literal. -/
def escapeChar (c : Char) : List Char :=
  if c = '"' then ['\\', '"']
  else if c = '\\' then ['\\', '\\']
  else if c = '\n' then ['\\', 'n']
  else if c = '\t' then ['\\', 't']
  else if c = '\r' then ['\\', 'r']
  else [c]

/-- Quote a string as a JSON string literal. -/
def quoteString (s : String) : String :=
  String.mk ('"' :: s.data.foldr (fun c acc => escapeChar c ++ acc) ['"'])

mutual

/-- Model of `JSON.stringify` before the surrounding try/catch: errors exactly on
values containing `vCyclic`. -/
def jsonStringifyRaw : Value → Except Unit String
  | Value.vNull => Except.ok "null"
  | Value.vBool true => Except.ok "true"
  | Value.vBool false => Except.ok "false"
  | Value.vInt n => Except.ok (toString n)
  | Value.vStr s => Except.ok (quoteString s)
  | Value.vArr items => do
      let ss ← stringifyItems items
      pure ("[" ++ String.intercalate "," ss ++ "]")
  | Value.vObj fields => do
      let ss ← stringifyFields fields
      pure ("\x7b" ++ String.intercalate "," ss ++ "\x7d")
  | Value.vCyclic => Except.error ()

/-- Serialize the elements of a JSON array. -/
def stringifyItems : List Value → Except Unit (List String)
  | [] => Except.ok []
  | v :: vs => do
      let s ← jsonStringifyRaw v
      let ss ← stringifyItems vs
      pure (s :: ss)

/-- Serialize the members of a JSON object. -/
def stringifyFields : List (String × Value) → Except Unit (List String)
  | [] => Except.ok []
  | (k, v) :: fs => do
      let s ← jsonStringifyRaw v
      let ss ← stringifyFields fs
      pure ((quoteString k ++ ":" ++ s) :: ss)

end

/-- Source `safeJsonStringify` from `utils.ts`: stringify, returning the sentinel
text `"null"` when serialization throws. -/
def safeJsonStringify (v : Value) : String :=
  match jsonStringifyRaw v with
  | Except.ok s => s
  | Except.error _ => "null"

/-- Whitespace recognised by the reader. -/
def isWsChar (c : Char) : Bool :=
  c = ' ' || c = '\n' || c = '\t' || c = '\r'

/-- Drop leading whitespace. -/
def skipWs : List Char → List Char
  | [] => []
  | c :: cs => if isWsChar c then skipWs cs else c :: cs

/-- Decode one escape character of a JSON string literal. -/
def unescapeChar (c : Char) : Option Char :=
  if c = '"' then some '"'
  else if c = '\\' then some '\\'
  else if c = '/' then some '/'
  else if c = 'n' then some '\n'
  else if c = 't' then some '\t'
  else if c = 'r' then some '\r'
  else none

/-- Read the body of a JSON string literal (after the opening quote),
returning the decoded characters and the remaining input. -/
def readStringBody : List Char → Option (List Char × List Char)
  | [] => none
  | '"' :: cs => some ([], cs)
  | '\\' :: cs =>
      match cs with
      | [] => none
      | e :: cs2 =>
          match unescapeChar e with
          | none => none
          | some d =>
              match readStringBody cs2 with
              | none => none
              | some (out, rest) => some (d :: out, rest)
  | c :: cs =>
      match readStringBody cs with
      | none => none
      | some (out, rest) => some (c :: out, rest)

/-- Split a leading run of decimal digits from the input. -/
def takeDigits : List Char → List Char × List Char
  | [] => ([], [])
  | c :: cs =>
      if c.isDigit then
        let (ds, rest) := takeDigits cs
        (c :: ds, rest)
      else ([], c :: cs)

/-- Numeric value of a digit run. -/
def digitsToNat (ds : List Char) : Nat :=
  ds.foldl (fun n c => n * 10 + (c.toNat - 48)) 0

mutual

/-- Fueled JSON reader for one value; returns the value and remaining input. -/
def readValue : Nat → List Char → Option (Value × List Char)
  | 0, _ => none
  | Nat.succ fuel, cs =>
      match skipWs cs with
      | 'n' :: 'u' :: 'l' :: 'l' :: rest => some (Value.vNull, rest)
      | 't' :: 'r' :: 'u' :: 'e' :: rest => some (Value.vBool true, rest)
      | 'f' :: 'a' :: 'l' :: 's' :: 'e' :: rest => some (Value.vBool false, rest)
      | '"' :: rest =>
          match readStringBody rest with
          | none => none
          | some (out, r2) => some (Value.vStr (String.mk out), r2)
      | '[' :: rest =>
          (match skipWs rest with
           | ']' :: r2 => some (Value.vArr [], r2)
           | _ =>
              match readItems fuel (skipWs rest) with
              | none => none
              | some (items, r2) => some (Value.vArr items, r2))
      | '\x7b' :: rest =>
          (match skipWs rest with
           | '\x7d' :: r2 => some (Value.vObj [], r2)
           | _ =>
              match readFields fuel (skipWs rest) with
              | none => none
              | some (fields, r2) => some (Value.vObj fields, r2))
      | '-' :: rest =>
          (match takeDigits rest with
           | ([], _) => none
           | (ds, r2) => some (Value.vInt (-(digitsToNat ds : Int)), r2))
      | c :: rest =>
          if c.isDigit then
            match takeDigits (c :: rest) with
            | (ds, r2) => some (Value.vInt (digitsToNat ds), r2)
          else none
      | [] => none

/-- Fueled reader for the comma-separated items of a non-empty array. -/
def readItems : Nat → List Char → Option (List Value × List Char)
  | 0, _ => none
  | Nat.succ fuel, cs =>
      match readValue fuel cs with
      | none => none
      | some (v, rest) =>
          match skipWs rest with
          | ',' :: r2 =>
              (match readItems fuel r2 with
               | none => none
               | some (vs, r3) => some (v :: vs, r3))
          | ']' :: r2 => some ([v], r2)
          | _ => none

/-- Fueled reader for the comma-separated members of a non-empty object. -/
def readFields : Nat → List Char → Option (List (String × Value) × List Char)
  | 0, _ => none
  | Nat.succ fuel, cs =>
      match skipWs cs with
      | '"' :: rest =>
          (match readStringBody rest with
           | none => none
           | some (keyChars, r2) =>
              match skipWs r2 with
              | ':' :: r3 =>
                  (match readValue fuel r3 with
                   | none => none
                   | some (v, r4) =>
                      match skipWs r4 with
                      | ',' :: r5 =>
                          (match readFields fuel r5 with
                           | none => none
                           | some (fs, r6) =>
                              some ((String.mk keyChars, v) :: fs, r6))
                      | '\x7d' :: r5 => some ([(String.mk keyChars, v)], r5)
                      | _ => none)
              | _ => none)
      | _ => none

end

/-- Source `safeJsonParse` from `utils.ts`: `JSON.parse` with the throw caught,
yielding `undefined` (`none`) on any malformed input. The whole input must
be consumed (up to trailing whitespace), as `JSON.parse` requires. -/
def safeJsonParse (s : String) : JSVal :=
  match readValue (s.length + 1) s.data with
  | some (v, rest) => if skipWs rest = [] then some v else none
  | none => none

/- ---------------------------------------------------------------------
   storage.ts : the durable-store adapter over a fallible `localStorage`.
   The underlying store maps textual keys to textual values; the three
   `*Throws` flags model environments where the corresponding raw
   `localStorage` operation raises (quota exceeded, store unavailable,
   non-browser execution context). The adapter wraps every raw operation
   in try/catch, so raw operations are `Except`-valued and the adapter
   functions are total.
   --------------------------------------------------------------------- -/

/-- The per-origin textual key-value store plus failure-mode flags. -/
structure DurableStore where
  items : List (String × String)
  getThrows : Bool
  setThrows : Bool
  removeThrows : Bool
deriving Repr

/-- Raw `localStorage.getItem` (returns `none` for a missing item,
raises when the store is inaccessible). -/
def rawGetItem (store : DurableStore) (storageKey : String) :
    Except Unit (Option String) :=
  if store.getThrows then Except.error ()
  else Except.ok (List.lookup storageKey store.items)

/-- Raw `localStorage.setItem`. -/
def rawSetItem (store : DurableStore) (storageKey serialized : String) :
    Except Unit DurableStore :=
  if store.setThrows then Except.error ()
  else Except.ok { store with items := alistSet storageKey serialized store.items }

/-- Raw `localStorage.removeItem`. -/
def rawRemoveItem (store : DurableStore) (storageKey : String) :
    Except Unit DurableStore :=
  if store.removeThrows then Except.error ()
  else Except.ok { store with items := alistRemove storageKey store.items }

/-- The cross-tab `StorageEvent`: `key` and `newValue` are nullable. -/
structure StorageEvt where
  key : Option String
  newValue : Option String
deriving Repr, DecidableEq

/-- JavaScript truthiness of `event.newValue` / of a stored item
(`null` and the empty string are falsy). -/
def optionStrTruthy : Option String → Bool
  | none => false
  | some s => s != ""

/-- Source `storage.get`: read and deserialize under the namespaced key; any raw
failure is caught and yields `undefined`, and a falsy stored item (absent
or empty) also yields `undefined`. -/
def storageGet (store : DurableStore) (key : String) : JSVal :=
  match rawGetItem store (getLocalStorageKey key) with
  | Except.error _ => none
  | Except.ok none => none
  | Except.ok (some stored) =>
      if stored = "" then none else safeJsonParse stored

/-- The text handed to `setItem`: `safeJsonStringify` for a defined value;
for `undefined`, `JSON.stringify` yields `undefined` without throwing and
`setItem` coerces that argument to the text `"undefined"`. -/
def serializeForStore : JSVal → String
  | some v => safeJsonStringify v
  | none => "undefined"

/-- Source `storage.set`: serialize (the serializer itself catches and degrades to
the sentinel `"null"`), write under the namespaced key, and dispatch the
cross-tab `StorageEvent`; a raw write failure is caught, logged, and leaves
the store unchanged with no event dispatched. The second component is the
dispatched event, if any. -/
def storageSet (store : DurableStore) (key : String) (v : JSVal) :
    DurableStore × Option StorageEvt :=
  let storageKey := getLocalStorageKey key
  let serialized := serializeForStore v
  match rawSetItem store storageKey serialized with
  | Except.error _ => (store, none)
  | Except.ok store2 => (store2, some ⟨some storageKey, some serialized⟩)

/-- Source `storage.remove`: remove under the namespaced key; a raw failure is
caught and ignored. -/
def storageRemove (store : DurableStore) (key : String) : DurableStore :=
  match rawRemoveItem store (getLocalStorageKey key) with
  | Except.error _ => store
  | Except.ok store2 => store2

/- ---------------------------------------------------------------------
   state.ts : the shared cache and its resolution / update operations.
   `sharedState` is a `Map<string, unknown>`; a JavaScript `Map` can hold
   `undefined` as a stored value, distinct from having no entry at all, so
   cache entries are `JSVal` (an `Option Value`) and entry presence is the
   association-list binding itself.
   --------------------------------------------------------------------- -/

/-- The process-wide engine state: the shared cache plus the durable store. -/
structure EngineState where
  sharedState : List (String × JSVal)
  store : DurableStore
deriving Repr

/-- The duck-typed setter argument, modelled as the tagged variant it
discriminates into at runtime (`typeof value === "function"`). -/
inductive StateUpdater where
  | lit (v : JSVal) : StateUpdater
  | fn (f : JSVal → JSVal) : StateUpdater

/-- The new value computed by `updateValue` from its updater argument. -/
def updaterNewValue (u : StateUpdater) (currentValue : JSVal) : JSVal :=
  match u with
  | StateUpdater.lit v => v
  | StateUpdater.fn f => f currentValue

/-- Source `getFromMemoryOrStorage` (plain revision, `src/state.ts`): memory fast
path, then durable read for persistent keys, then initialization from the
supplied initial value (with write-through for persistent keys), else
`undefined`. Returns the resolved value and the updated state. -/
def getFromMemoryOrStorage (st : EngineState) (key : String)
    (initialValue : JSVal) : JSVal × EngineState :=
  match List.lookup key st.sharedState with
  | some v => (v, st)
  | none =>
    match (if isPersistentKey key then storageGet st.store key else none) with
    | some persisted =>
        (some persisted,
         { st with sharedState := alistSet key (some persisted) st.sharedState })
    | none =>
        match initialValue with
        | some i =>
            let st1 := { st with sharedState := alistSet key (some i) st.sharedState }
            let st2 :=
              if isPersistentKey key then
                { st1 with store := (storageSet st1.store key (some i)).1 }
              else st1
            (some i, st2)
        | none => (none, st)

/-- Source `updateValue`: compute the new value, write it to the cache
unconditionally, write through to the durable store for persistent keys,
then call `mutate` with the new value. The second component is the value
passed to `mutate` (the notification broadcast). -/
def updateValue (st : EngineState) (key : String) (u : StateUpdater)
    (currentValue : JSVal) : EngineState × JSVal :=
  let newValue := updaterNewValue u currentValue
  let st1 := { st with sharedState := alistSet key newValue st.sharedState }
  let st2 :=
    if isPersistentKey key then
      { st1 with store := (storageSet st1.store key newValue).1 }
    else st1
  (st2, newValue)

/- ---------------------------------------------------------------------
   state.ts, hydration-gated revision: the hydration gate and the
   SSR-safe resolution. The gate's module globals `isHydrated` /
   `typeof window` are passed explicitly.
   --------------------------------------------------------------------- -/

/-- The hydration gate: the process-wide flag plus the deferred-callback
queue. Callbacks are opaque handles (the engine never inspects them). -/
structure HydrationGate where
  isHydrated : Bool
  callbacks : List Nat
deriving Repr, DecidableEq

/-- Source `onHydrated`: run the callback immediately when already hydrated, else
queue it. The second component is `true` iff the callback ran synchronously. -/
def onHydrated (g : HydrationGate) (cb : Nat) : HydrationGate × Bool :=
  if g.isHydrated then (g, true)
  else ({ g with callbacks := g.callbacks ++ [cb] }, false)

/-- Source `markHydrated`: flip the flag and drain the queue; the second component
is the list of callbacks executed, in registration order. -/
def markHydrated (g : HydrationGate) : HydrationGate × List Nat :=
  (⟨true, []⟩, g.callbacks)

/-- Source `getFromMemoryOrStorage` (hydration-gated revision): identical to the
plain revision except that, for a persistent key before hydration (or with
no `window`), the durable store is bypassed entirely: the supplied initial
value is cached and returned when present, else `undefined` is returned,
and in neither case is the store read or written. -/
def getFromMemoryOrStorageHyd (windowDefined isHydrated : Bool)
    (st : EngineState) (key : String) (initialValue : JSVal) :
    JSVal × EngineState :=
  match List.lookup key st.sharedState with
  | some v => (v, st)
  | none =>
    if isPersistentKey key ∧ (windowDefined = false ∨ isHydrated = false) then
      match initialValue with
      | some i =>
          (some i, { st with sharedState := alistSet key (some i) st.sharedState })
      | none => (none, st)
    else
      match (if isPersistentKey key then storageGet st.store key else none) with
      | some persisted =>
          (some persisted,
           { st with sharedState := alistSet key (some persisted) st.sharedState })
      | none =>
          match initialValue with
          | some i =>
              let st1 := { st with sharedState := alistSet key (some i) st.sharedState }
              let st2 :=
                if isPersistentKey key then
                  { st1 with store := (storageSet st1.store key (some i)).1 }
                else st1
              (some i, st2)
          | none => (none, st)

/- ---------------------------------------------------------------------
   index.ts : the cross-tab signal handler registered (for persistent
   keys) while a subscriber is mounted.
   --------------------------------------------------------------------- -/

/-- Source `handleStorageChange`: on a signal whose key matches the subscribed
key's namespaced storage key and whose payload is truthy, deserialize; on
success overwrite the cache entry and call `mutate` (notify); otherwise do
nothing. The second component is the value passed to `mutate`, if any. -/
def handleStorageChange (key : String) (ev : StorageEvt) (st : EngineState) :
    EngineState × Option JSVal :=
  let expectedStorageKey := getLocalStorageKey key
  if ev.key = some expectedStorageKey ∧ optionStrTruthy ev.newValue = true then
    match ev.newValue with
    | some payload =>
        (match safeJsonParse payload with
         | some newValue =>
            ({ st with sharedState := alistSet key (some newValue) st.sharedState },
             some (some newValue))
         | none => (st, none))
    | none => (st, none)
  else (st, none)

/- ---------------------------------------------------------------------
   defaults.ts : createSafeDefault
   --------------------------------------------------------------------- -/

/-- The runtime type inspection of `createSafeDefault`'s sample branch:
`Array.isArray`, then `typeof === "object" && !== null`, then string,
number, boolean; anything else falls through to the final `return {}`.
(`typeof null === "object"` but the `!== null` guard excludes it.) -/
def sampleDefault : Value → JSVal
  | Value.vArr _ => some (Value.vArr [])
  | Value.vObj _ => some (Value.vObj [])
  | Value.vCyclic => some (Value.vObj [])
  | Value.vStr _ => some (Value.vStr "")
  | Value.vInt _ => some (Value.vInt 0)
  | Value.vBool _ => some (Value.vBool false)
  | Value.vNull => some (Value.vObj [])

/-- Source `createSafeDefault` from `defaults.ts`, translated clause for clause:
return `value` when defined; else return `fallbackInitial` when defined;
else inspect `sample := fallbackInitial` (necessarily `undefined` at this
point, so the inspection branch cannot fire) and finally return the empty
object `{}` (object literal creation cannot throw, so the catch arm's
`null` is unreachable). -/
def createSafeDefault (value fallbackInitial : JSVal) : JSVal :=
  if value.isSome then value
  else if fallbackInitial.isSome then fallbackInitial
  else
    let sample := fallbackInitial
    match sample with
    | some s => sampleDefault s
    | none => some (Value.vObj [])

/- ---------------------------------------------------------------------
   The lite-SWR subscription registry: `subscribe` / `notify` over
   process-wide `subscriptions` and `cache` maps. A subscriber callback is
   an opaque `() => void`; its observable synchronous behaviour is either
   inert (the rerender handle the hook registers, which only schedules
   a re-render with the host framework) or an invocation of the setter
   for some key, i.e. of `mutate` (cache write followed by `notify`).
   Executions are fueled and instrumented with an event trace so that
   nesting of notifications is observable.
   --------------------------------------------------------------------- -/

/-- The synchronous behaviour of a subscriber callback. -/
inductive CbAct where
  | rerender : CbAct
  | updateKey (key : String) (v : Value) : CbAct
deriving Repr

/-- The registry state: per-key callback sets plus the lite-SWR cache. -/
structure SWRState where
  subscriptions : List (String × List CbAct)
  cache : List (String × JSVal)
deriving Repr

/-- Trace events of a notification broadcast: entry into and exit from a
`notify(key)` call, and the invocation of one subscriber callback of `key`. -/
inductive NEv where
  | enterNotify (key : String) : NEv
  | invoke (key : String) : NEv
  | leaveNotify (key : String) : NEv
deriving Repr, DecidableEq

mutual

/-- Source `notify(key)`: invoke every current subscriber callback of `key`,
inline and unconditionally — the source has no reentrancy guard and no
queue. Fueled to bound the recursion a reentrant update causes. -/
def notifySWR : Nat → String → SWRState → SWRState × List NEv
  | 0, _, st => (st, [])
  | Nat.succ fuel, key, st =>
      let cbs := (List.lookup key st.subscriptions).getD []
      let (st2, evs) := runCallbacks fuel key cbs st
      (st2, NEv.enterNotify key :: evs ++ [NEv.leaveNotify key])

/-- Invoke a list of callbacks of `key` in order (also fueled, one unit
per processed callback, so the recursion is structural on the fuel). -/
def runCallbacks : Nat → String → List CbAct → SWRState → SWRState × List NEv
  | 0, _, _, st => (st, [])
  | Nat.succ _, _, [], st => (st, [])
  | Nat.succ fuel, key, CbAct.rerender :: rest, st =>
      let (st2, evs) := runCallbacks fuel key rest st
      (st2, NEv.invoke key :: evs)
  | Nat.succ fuel, key, CbAct.updateKey k v :: rest, st =>
      -- the callback calls the setter: mutate = cache.set(k, v); notify(k)
      let st1 : SWRState := { st with cache := alistSet k (some v) st.cache }
      let (st2, evs2) := notifySWR fuel k st1
      let (st3, evs3) := runCallbacks fuel key rest st2
      (st3, NEv.invoke key :: evs2 ++ evs3)

end

/-- Whether the trace contains a subscriber invocation for `key` performed
while a `notify(key)` broadcast is already running inside another one
(notification depth at least 2), starting from depth `d`. -/
def hasNestedInvoke (key : String) : List NEv → Nat → Bool
  | [], _ => false
  | NEv.enterNotify k :: rest, d =>
      hasNestedInvoke key rest (if k == key then d + 1 else d)
  | NEv.leaveNotify k :: rest, d =>
      hasNestedInvoke key rest (if k == key then d - 1 else d)
  | NEv.invoke k :: rest, d =>
      ((k == key) && decide (2 ≤ d)) || hasNestedInvoke key rest d

/- ---------------------------------------------------------------------
   Engine operations, as a step relation over `EngineState`, for stating
   state invariants over arbitrary operation sequences.
   --------------------------------------------------------------------- -/

/-- One engine operation: a resolution (with its optional initial value),
a setter invocation (`updateValue` with the updater and the current value
the hook passes it), or the application of a cross-context storage signal
to a subscribed key. -/
inductive Op where
  | resolve (key : String) (initialValue : JSVal) : Op
  | update (key : String) (u : StateUpdater) (currentValue : JSVal) : Op
  | signal (key : String) (ev : StorageEvt) : Op

/-- Execute one operation (discarding the value it returns or broadcasts). -/
def stepOp (st : EngineState) : Op → EngineState
  | Op.resolve key initialValue => (getFromMemoryOrStorage st key initialValue).2
  | Op.update key u currentValue => (updateValue st key u currentValue).1
  | Op.signal key ev => (handleStorageChange key ev st).1

/-- Execute a sequence of operations from left to right. -/
def runOps (st : EngineState) (ops : List Op) : EngineState :=
  List.foldl stepOp st ops

/-- Invariant I1: every key present in the shared cache maps to a defined
value, never to the absence-marker. -/
def cacheDefined (st : EngineState) : Prop :=
  ∀ k v, List.lookup k st.sharedState = some v → v ≠ none

/-- The side condition under which a setter invocation keeps I1: the value
it computes is not the absence-marker. Resolutions and signals carry no
condition. -/
def opWritesDefined : Op → Prop
  | Op.update _ u currentValue => updaterNewValue u currentValue ≠ none
  | _ => True

/- =====================================================================
   Theorems
   ===================================================================== -/

/-- C2: `createSafeDefault` returns, in order, the given value when it is
defined; else the fallback initial value when defined; else the empty
object — the shape-hint inspection reads `fallbackInitial`, which is
necessarily absent at that point, so no shape hint is ever available and
the zero-information empty record is produced (the hint branch itself maps
shapes type-appropriately: array to empty array, object to empty record,
string to empty string, number to zero, boolean to false). The function is
total and its result is never the absence-marker. -/
theorem createSafeDefault_resolution_order (value fallbackInitial : JSVal) :
    (value.isSome = true → createSafeDefault value fallbackInitial = value)
  ∧ (value = none → fallbackInitial.isSome = true →
      createSafeDefault value fallbackInitial = fallbackInitial)
  ∧ (value = none → fallbackInitial = none →
      createSafeDefault value fallbackInitial = some (Value.vObj []))
  ∧ (createSafeDefault value fallbackInitial).isSome = true
  ∧ (∀ xs, sampleDefault (Value.vArr xs) = some (Value.vArr []))
  ∧ (∀ fs, sampleDefault (Value.vObj fs) = some (Value.vObj []))
  ∧ (∀ s, sampleDefault (Value.vStr s) = some (Value.vStr ""))
  ∧ (∀ n, sampleDefault (Value.vInt n) = some (Value.vInt 0))
  ∧ (∀ b, sampleDefault (Value.vBool b) = some (Value.vBool false)) := by
  refine ⟨?_, ?_, ?_, ?_, fun xs => rfl, fun fs => rfl, fun s => rfl,
    fun n => rfl, fun b => rfl⟩ <;>
    cases value <;> cases fallbackInitial <;> simp [createSafeDefault]

/-- C2 witness: the three clauses at concrete inputs. -/
theorem createSafeDefault_resolution_order_witness :
    createSafeDefault (some (Value.vInt 7)) none = some (Value.vInt 7)
  ∧ createSafeDefault none (some (Value.vStr "x")) = some (Value.vStr "x")
  ∧ createSafeDefault none none = some (Value.vObj [])
  ∧ (createSafeDefault none none).isSome = true
  ∧ sampleDefault (Value.vArr [Value.vInt 1]) = some (Value.vArr []) :=
  ⟨(createSafeDefault_resolution_order (some (Value.vInt 7)) none).1 rfl,
   (createSafeDefault_resolution_order none (some (Value.vStr "x"))).2.1 rfl rfl,
   (createSafeDefault_resolution_order none none).2.2.1 rfl rfl,
   (createSafeDefault_resolution_order none none).2.2.2.1,
   (createSafeDefault_resolution_order none none).2.2.2.2.1 [Value.vInt 1]⟩

/-- C7: every adapter operation is total and error-isolated: when the raw
store raises, `get` yields the absent result, `set` leaves the store
unchanged (and dispatches no event), `remove` leaves the store unchanged;
and a value whose serialization throws is stored as the sentinel text
`"null"`. -/
theorem storage_adapter_total (store : DurableStore) (key : String)
    (v : JSVal) (w : Value) :
    (store.getThrows = true → storageGet store key = none)
  ∧ (store.setThrows = true → storageSet store key v = (store, none))
  ∧ (store.removeThrows = true → storageRemove store key = store)
  ∧ (store.setThrows = false → jsonStringifyRaw w = Except.error () →
      List.lookup (getLocalStorageKey key) (storageSet store key (some w)).1.items
        = some "null") := by
  refine ⟨?_, ?_, ?_, ?_⟩
  · intro h; simp [storageGet, rawGetItem, h]
  · intro h; simp [storageSet, rawSetItem, h]
  · intro h; simp [storageRemove, rawRemoveItem, h]
  · intro h he
    simp [storageSet, rawSetItem, h, serializeForStore, safeJsonStringify, he,
      lookup_alistSet]

/-- C7 witness: a store whose raw operations all raise, and a cyclic value
written to a healthy store. -/
theorem storage_adapter_total_witness :
    storageGet ⟨[("shared@user", "1")], true, true, true⟩ "@user" = none
  ∧ storageSet ⟨[("shared@user", "1")], true, true, true⟩ "@user" (some Value.vNull)
      = (⟨[("shared@user", "1")], true, true, true⟩, none)
  ∧ storageRemove ⟨[("shared@user", "1")], true, true, true⟩ "@user"
      = ⟨[("shared@user", "1")], true, true, true⟩
  ∧ List.lookup (getLocalStorageKey "@user")
      ((storageSet ⟨[], false, false, false⟩ "@user" (some Value.vCyclic)).1.items)
      = some "null" :=
  ⟨(storage_adapter_total ⟨[("shared@user", "1")], true, true, true⟩ "@user"
      (some Value.vNull) Value.vNull).1 rfl,
   (storage_adapter_total ⟨[("shared@user", "1")], true, true, true⟩ "@user"
      (some Value.vNull) Value.vNull).2.1 rfl,
   (storage_adapter_total ⟨[("shared@user", "1")], true, true, true⟩ "@user"
      (some Value.vNull) Value.vNull).2.2.1 rfl,
   (storage_adapter_total ⟨[], false, false, false⟩ "@user"
      (some Value.vCyclic) Value.vCyclic).2.2.2 rfl rfl⟩

/-- C8: a durable-store write failure never corrupts or rolls back the
shared-cache write: after a setter invocation on a persistent key whose
underlying store raises on write, the cache binds the key to the computed
new value, `mutate` is called with that value, a subsequent resolution in
the same process returns it, and the durable store is unchanged. -/
theorem cache_write_survives_store_failure (st : EngineState) (key : String)
    (u : StateUpdater) (currentValue initial2 : JSVal)
    (hp : isPersistentKey key = true) (hfail : st.store.setThrows = true) :
    List.lookup key (updateValue st key u currentValue).1.sharedState
        = some (updaterNewValue u currentValue)
  ∧ (updateValue st key u currentValue).2 = updaterNewValue u currentValue
  ∧ (getFromMemoryOrStorage (updateValue st key u currentValue).1 key initial2).1
        = updaterNewValue u currentValue
  ∧ (updateValue st key u currentValue).1.store = st.store := by
  have hstore : (updateValue st key u currentValue).1.store = st.store := by
    simp [updateValue, hp, storageSet, rawSetItem, hfail]
  have hcache : List.lookup key (updateValue st key u currentValue).1.sharedState
      = some (updaterNewValue u currentValue) := by
    simp [updateValue, hp, storageSet, rawSetItem, hfail, lookup_alistSet]
  refine ⟨hcache, ?_, ?_, hstore⟩
  · simp [updateValue]
  · simp [getFromMemoryOrStorage, hcache]

/-- C8 witness: a setter on `"@user"` with a store that raises on write. -/
theorem cache_write_survives_store_failure_witness :
    List.lookup "@user"
      (updateValue ⟨[], ⟨[], false, true, false⟩⟩ "@user"
        (StateUpdater.lit (some (Value.vStr "new"))) none).1.sharedState
      = some (some (Value.vStr "new"))
  ∧ (getFromMemoryOrStorage
      (updateValue ⟨[], ⟨[], false, true, false⟩⟩ "@user"
        (StateUpdater.lit (some (Value.vStr "new"))) none).1 "@user" none).1
      = some (Value.vStr "new")
  ∧ (updateValue ⟨[], ⟨[], false, true, false⟩⟩ "@user"
      (StateUpdater.lit (some (Value.vStr "new"))) none).1.store
      = ⟨[], false, true, false⟩ :=
  ⟨(cache_write_survives_store_failure ⟨[], ⟨[], false, true, false⟩⟩ "@user"
      (StateUpdater.lit (some (Value.vStr "new"))) none none (by decide) rfl).1,
   (cache_write_survives_store_failure ⟨[], ⟨[], false, true, false⟩⟩ "@user"
      (StateUpdater.lit (some (Value.vStr "new"))) none none (by decide) rfl).2.2.1,
   (cache_write_survives_store_failure ⟨[], ⟨[], false, true, false⟩⟩ "@user"
      (StateUpdater.lit (some (Value.vStr "new"))) none none (by decide) rfl).2.2.2⟩

/-- C5: resolution follows exactly the order cache entry → durable read
(persistent keys only, caching a non-absent result) → supplied initial
value (cached, and written through for persistent keys) → absence-marker. -/
theorem resolution_order (st : EngineState) (key : String) (initial : JSVal) :
    (∀ v, List.lookup key st.sharedState = some v →
        getFromMemoryOrStorage st key initial = (v, st))
  ∧ (∀ p, List.lookup key st.sharedState = none → isPersistentKey key = true →
        storageGet st.store key = some p →
        getFromMemoryOrStorage st key initial =
          (some p, { st with sharedState := alistSet key (some p) st.sharedState }))
  ∧ (∀ i, List.lookup key st.sharedState = none →
        (isPersistentKey key = true → storageGet st.store key = none) →
        initial = some i →
        getFromMemoryOrStorage st key initial =
          (some i,
            if isPersistentKey key then
              { sharedState := alistSet key (some i) st.sharedState,
                store := (storageSet st.store key (some i)).1 }
            else { st with sharedState := alistSet key (some i) st.sharedState }))
  ∧ (List.lookup key st.sharedState = none →
        (isPersistentKey key = true → storageGet st.store key = none) →
        initial = none →
        getFromMemoryOrStorage st key initial = (none, st)) := by
  refine ⟨?_, ?_, ?_, ?_⟩
  · intro v hl
    simp [getFromMemoryOrStorage, hl]
  · intro p hl hp hg
    simp [getFromMemoryOrStorage, hl, hp, hg]
  · intro i hl hg hi
    subst hi
    by_cases hp : isPersistentKey key = true
    · simp [getFromMemoryOrStorage, hl, hp, hg hp]
    · simp at hp
      simp [getFromMemoryOrStorage, hl, hp]
  · intro hl hg hi
    subst hi
    by_cases hp : isPersistentKey key = true
    · simp [getFromMemoryOrStorage, hl, hp, hg hp]
    · simp at hp
      simp [getFromMemoryOrStorage, hl, hp]

/-- C5 witness: each of the four resolution cases at a concrete input. -/
theorem resolution_order_witness :
    getFromMemoryOrStorage ⟨[("a", some (Value.vInt 5))], ⟨[], false, false, false⟩⟩
        "a" none
      = (some (Value.vInt 5), ⟨[("a", some (Value.vInt 5))], ⟨[], false, false, false⟩⟩)
  ∧ getFromMemoryOrStorage ⟨[], ⟨[("shared@p", "3")], false, false, false⟩⟩ "@p" none
      = (some (Value.vInt 3),
         ⟨[("@p", some (Value.vInt 3))], ⟨[("shared@p", "3")], false, false, false⟩⟩)
  ∧ getFromMemoryOrStorage ⟨[], ⟨[], false, false, false⟩⟩ "a" (some (Value.vInt 9))
      = (some (Value.vInt 9), ⟨[("a", some (Value.vInt 9))], ⟨[], false, false, false⟩⟩)
  ∧ getFromMemoryOrStorage ⟨[], ⟨[], false, false, false⟩⟩ "a" none
      = (none, ⟨[], ⟨[], false, false, false⟩⟩) :=
  ⟨(resolution_order ⟨[("a", some (Value.vInt 5))], ⟨[], false, false, false⟩⟩
      "a" none).1 (some (Value.vInt 5)) rfl,
   (resolution_order ⟨[], ⟨[("shared@p", "3")], false, false, false⟩⟩ "@p" none).2.1
      (Value.vInt 3) rfl rfl rfl,
   (resolution_order ⟨[], ⟨[], false, false, false⟩⟩ "a" (some (Value.vInt 9))).2.2.1
      (Value.vInt 9) rfl (by intro h; exact absurd h (by decide)) rfl,
   (resolution_order ⟨[], ⟨[], false, false, false⟩⟩ "a" none).2.2.2
      rfl (by intro h; exact absurd h (by decide)) rfl⟩

/-- Setting a defined value keeps every cache binding defined. -/
theorem lookupDefined_set {xs : List (String × JSVal)} {key : String} {w : JSVal}
    (h : ∀ k v, List.lookup k xs = some v → v ≠ none) (hw : w ≠ none) :
    ∀ k v, List.lookup k (alistSet key w xs) = some v → v ≠ none := by
  intro k v hv
  rw [lookup_alistSet] at hv
  by_cases hk : k = key
  · rw [if_pos hk] at hv
    cases hv
    exact hw
  · rw [if_neg hk] at hv
    exact h k v hv

/-- One engine operation whose computed write (if any) is defined keeps
invariant I1. -/
theorem stepOp_cacheDefined {st : EngineState} {op : Op}
    (h : cacheDefined st) (hop : opWritesDefined op) :
    cacheDefined (stepOp st op) := by
  cases op with
  | resolve key initial =>
      show cacheDefined (getFromMemoryOrStorage st key initial).2
      cases hl : List.lookup key st.sharedState with
      | some v =>
          simp [getFromMemoryOrStorage, hl]
          exact h
      | none =>
          by_cases hp : isPersistentKey key = true
          · cases hg : storageGet st.store key with
            | some p =>
                simp [getFromMemoryOrStorage, hl, hp, hg]
                exact lookupDefined_set h (Option.some_ne_none _)
            | none =>
                cases initial with
                | some i =>
                    simp [getFromMemoryOrStorage, hl, hp, hg]
                    exact lookupDefined_set h (Option.some_ne_none _)
                | none =>
                    simp [getFromMemoryOrStorage, hl, hp, hg]
                    exact h
          · simp at hp
            cases initial with
            | some i =>
                simp [getFromMemoryOrStorage, hl, hp]
                exact lookupDefined_set h (Option.some_ne_none _)
            | none =>
                simp [getFromMemoryOrStorage, hl, hp]
                exact h
  | update key u currentValue =>
      show cacheDefined (updateValue st key u currentValue).1
      have hop2 : updaterNewValue u currentValue ≠ none := hop
      by_cases hp : isPersistentKey key = true
      · simp [updateValue, hp]
        exact lookupDefined_set h hop2
      · simp at hp
        simp [updateValue, hp]
        exact lookupDefined_set h hop2
  | signal key ev =>
      show cacheDefined (handleStorageChange key ev st).1
      by_cases hc : ev.key = some (getLocalStorageKey key) ∧ optionStrTruthy ev.newValue = true
      · obtain ⟨hck, hct⟩ := hc
        cases hnv : ev.newValue with
        | none =>
            rw [hnv] at hct
            simp [optionStrTruthy] at hct
        | some payload =>
            rw [hnv] at hct
            cases hpj : safeJsonParse payload with
            | none =>
                simp [handleStorageChange, hck, hct, hnv, hpj]
                exact h
            | some nv =>
                simp [handleStorageChange, hck, hct, hnv, hpj]
                exact lookupDefined_set h (Option.some_ne_none _)
      · simp [handleStorageChange, hc]
        exact h

/-- C1 amended: starting from a state satisfying I1 (every key present in
the shared cache maps to a defined value), any sequence of resolutions,
setter invocations, and cross-context signal applications preserves I1 —
provided every setter invocation in the sequence computes a defined new
value. (The proviso is forced: a setter invoked with a literal `undefined`,
or with an updater returning `undefined`, writes the absence-marker into
the cache; see the counterexample.) -/
theorem cacheDefined_preserved (st : EngineState) (ops : List Op)
    (h0 : cacheDefined st) (hops : ∀ op ∈ ops, opWritesDefined op) :
    cacheDefined (runOps st ops) := by
  induction ops generalizing st with
  | nil => exact h0
  | cons op rest ih =>
      have hstep : cacheDefined (stepOp st op) :=
        stepOp_cacheDefined h0 (hops op (by simp))
      have hrest : ∀ o ∈ rest, opWritesDefined o := fun o ho => hops o (by simp [ho])
      simpa [runOps, List.foldl] using ih (stepOp st op) hstep hrest

/-- C1 witness: a resolve, a defined-value update, and a signal keep every
cached binding defined. -/
theorem cacheDefined_preserved_witness :
    cacheDefined (runOps ⟨[], ⟨[], false, false, false⟩⟩
      [Op.resolve "a" (some (Value.vInt 1)),
       Op.update "a" (StateUpdater.lit (some (Value.vInt 2))) (some (Value.vInt 1)),
       Op.signal "@u" ⟨some "shared@u", some "null"⟩]) :=
  cacheDefined_preserved ⟨[], ⟨[], false, false, false⟩⟩
    [Op.resolve "a" (some (Value.vInt 1)),
     Op.update "a" (StateUpdater.lit (some (Value.vInt 2))) (some (Value.vInt 1)),
     Op.signal "@u" ⟨some "shared@u", some "null"⟩]
    (fun k v hv => absurd hv (by simp [List.lookup]))
    (by
      intro op hop
      simp at hop
      rcases hop with h | h | h <;> subst h
      · trivial
      · show updaterNewValue (StateUpdater.lit (some (Value.vInt 2)))
            (some (Value.vInt 1)) ≠ none
        simp [updaterNewValue]
      · trivial)

/-- C1 counterexample: the claim as stated is false — invoking the setter
with a literal `undefined` stores the absence-marker into the shared
cache: afterwards the key `"k"` is present and maps to `undefined`. -/
theorem cache_undefined_reachable :
    List.lookup "k"
      (runOps ⟨[], ⟨[], false, false, false⟩⟩
        [Op.update "k" (StateUpdater.lit none) none]).sharedState = some none
  ∧ ¬ cacheDefined (runOps ⟨[], ⟨[], false, false, false⟩⟩
        [Op.update "k" (StateUpdater.lit none) none]) := by
  constructor
  · rfl
  · intro h
    exact h "k" none rfl rfl

/-- C3 amended: while the hydration gate is pending, resolution of a
persistent key never touches the durable store (the store is unchanged and
the result does not depend on its contents); on a cache miss the supplied
initial value is returned (and cached when present, the state untouched
otherwise); on a cache hit the cached entry is returned. -/
theorem preHydration_resolution (w : Bool) (st : EngineState) (key : String)
    (initial : JSVal) (hp : isPersistentKey key = true) :
    (getFromMemoryOrStorageHyd w false st key initial).2.store = st.store
  ∧ (∀ store2 : DurableStore,
      (getFromMemoryOrStorageHyd w false ⟨st.sharedState, store2⟩ key initial).1
        = (getFromMemoryOrStorageHyd w false st key initial).1)
  ∧ (∀ v, List.lookup key st.sharedState = some v →
      getFromMemoryOrStorageHyd w false st key initial = (v, st))
  ∧ (List.lookup key st.sharedState = none →
      (getFromMemoryOrStorageHyd w false st key initial).1 = initial
    ∧ (∀ i, initial = some i →
        (getFromMemoryOrStorageHyd w false st key initial).2.sharedState
          = alistSet key (some i) st.sharedState)
    ∧ (initial = none → (getFromMemoryOrStorageHyd w false st key initial).2 = st)) := by
  refine ⟨?_, ?_, ?_, ?_⟩
  · cases hl : List.lookup key st.sharedState with
    | some v => simp [getFromMemoryOrStorageHyd, hl]
    | none =>
        cases initial with
        | some i => simp [getFromMemoryOrStorageHyd, hl, hp]
        | none => simp [getFromMemoryOrStorageHyd, hl, hp]
  · intro store2
    cases hl : List.lookup key st.sharedState with
    | some v => simp [getFromMemoryOrStorageHyd, hl]
    | none =>
        cases initial with
        | some i => simp [getFromMemoryOrStorageHyd, hl, hp]
        | none => simp [getFromMemoryOrStorageHyd, hl, hp]
  · intro v hl
    simp [getFromMemoryOrStorageHyd, hl]
  · intro hl
    cases initial with
    | some i => simp [getFromMemoryOrStorageHyd, hl, hp]
    | none => simp [getFromMemoryOrStorageHyd, hl, hp]

/-- C3 witness: pre-hydration, with the durable store holding a value for
`"@draft"`, a cache miss resolves to the supplied initial value, the store
is untouched, and the result is the same for any store contents. -/
theorem preHydration_resolution_witness :
    (getFromMemoryOrStorageHyd true false
        ⟨[], ⟨[("shared@draft", "\"saved text\"")], false, false, false⟩⟩
        "@draft" (some (Value.vStr ""))).2.store
      = ⟨[("shared@draft", "\"saved text\"")], false, false, false⟩
  ∧ (getFromMemoryOrStorageHyd true false
        ⟨[], ⟨[("shared@draft", "\"saved text\"")], false, false, false⟩⟩
        "@draft" (some (Value.vStr ""))).1 = some (Value.vStr "") :=
  ⟨(preHydration_resolution true
      ⟨[], ⟨[("shared@draft", "\"saved text\"")], false, false, false⟩⟩
      "@draft" (some (Value.vStr "")) (by decide)).1,
   ((preHydration_resolution true
      ⟨[], ⟨[("shared@draft", "\"saved text\"")], false, false, false⟩⟩
      "@draft" (some (Value.vStr "")) (by decide)).2.2.2 rfl).1⟩

/-- C3 counterexample: the claim as stated ("if an initial value is
supplied it is returned") is false when the key already has a cache entry:
pre-hydration resolution of persistent `"@draft"` with initial `"init"`
returns the cached `"cached"`, not the initial value. -/
theorem preHydration_cached_key_overrides_initial :
    (getFromMemoryOrStorageHyd true false
        ⟨[("@draft", some (Value.vStr "cached"))], ⟨[], false, false, false⟩⟩
        "@draft" (some (Value.vStr "init"))).1 = some (Value.vStr "cached")
  ∧ (some (Value.vStr "cached") : JSVal) ≠ some (Value.vStr "init") := by
  refine ⟨rfl, ?_⟩
  intro h
  injection h with h2
  injection h2 with h3
  exact absurd h3 (by decide)

/-- C4 amended: after the hydration gate becomes ready, no reconciliation
happens for a key that already has a cache entry (in particular one
resolved pre-ready from its initial value): resolution takes the cache
fast path, returns the cached value, leaves the whole state unchanged, and
never consults the durable store; the engine registers no hydration
callback that would re-read the store or notify subscribers. -/
theorem postHydration_cached_key_resolution (st : EngineState) (key : String)
    (initial : JSVal) (v : JSVal) (hc : List.lookup key st.sharedState = some v) :
    getFromMemoryOrStorageHyd true true st key initial = (v, st) := by
  simp [getFromMemoryOrStorageHyd, hc]

/-- C4 witness: post-ready resolution of the cached `"@draft"` returns the
cached (stale) empty draft unchanged. -/
theorem postHydration_cached_key_resolution_witness :
    getFromMemoryOrStorageHyd true true
      ⟨[("@draft", some (Value.vStr ""))],
       ⟨[("shared@draft", "\"saved text\"")], false, false, false⟩⟩
      "@draft" (some (Value.vStr ""))
    = (some (Value.vStr ""),
       ⟨[("@draft", some (Value.vStr ""))],
        ⟨[("shared@draft", "\"saved text\"")], false, false, false⟩⟩) :=
  postHydration_cached_key_resolution
    ⟨[("@draft", some (Value.vStr ""))],
     ⟨[("shared@draft", "\"saved text\"")], false, false, false⟩⟩
    "@draft" (some (Value.vStr "")) (some (Value.vStr "")) rfl

/-- C4 counterexample: the spec scenario refuted on the code. Pre-ready,
`"@draft"` resolves to its initial `""` and caches it while the durable
store holds `"saved text"`; the gate then flips with an empty callback
queue (the engine registered none, `onHydrated` has no caller), and
post-ready resolution still returns `""` with the state unchanged — the
cache is never corrected to the store-held value and no notification is
produced. -/
theorem no_postHydration_reconciliation :
    (getFromMemoryOrStorageHyd true false
        ⟨[], ⟨[("shared@draft", "\"saved text\"")], false, false, false⟩⟩
        "@draft" (some (Value.vStr ""))).1 = some (Value.vStr "")
  ∧ markHydrated ⟨false, []⟩ = (⟨true, []⟩, [])
  ∧ getFromMemoryOrStorageHyd true true
        (getFromMemoryOrStorageHyd true false
          ⟨[], ⟨[("shared@draft", "\"saved text\"")], false, false, false⟩⟩
          "@draft" (some (Value.vStr ""))).2
        "@draft" (some (Value.vStr ""))
      = (some (Value.vStr ""),
         (getFromMemoryOrStorageHyd true false
           ⟨[], ⟨[("shared@draft", "\"saved text\"")], false, false, false⟩⟩
           "@draft" (some (Value.vStr ""))).2)
  ∧ storageGet ⟨[("shared@draft", "\"saved text\"")], false, false, false⟩ "@draft"
      = some (Value.vStr "saved text")
  ∧ (some (Value.vStr "") : JSVal) ≠ some (Value.vStr "saved text") := by
  refine ⟨rfl, rfl, rfl, rfl, ?_⟩
  intro h
  injection h with h2
  injection h2 with h3
  exact absurd h3 (by decide)

/-- C10: a cross-context signal for a subscribed persistent key whose
payload is the exact sentinel text `"null"` is not ignored: it
deserializes to JSON `null` (distinct from the absence-marker), the cache
entry is overwritten with it, and `mutate` (the subscriber notification)
is called with it; a signal whose payload is missing, empty, or fails to
deserialize leaves the state unchanged and notifies nobody. -/
theorem signal_null_payload_applied (st : EngineState) (key : String)
    (hp : isPersistentKey key = true) :
    handleStorageChange key ⟨some (getLocalStorageKey key), some "null"⟩ st
      = ({ st with sharedState := alistSet key (some Value.vNull) st.sharedState },
         some (some Value.vNull))
  ∧ (∀ ev : StorageEvt,
      (ev.newValue = none ∨ ev.newValue = some "" ∨
        (∀ s, ev.newValue = some s → safeJsonParse s = none)) →
      handleStorageChange key ev st = (st, none)) := by
  constructor
  · have hparse : safeJsonParse "null" = some Value.vNull := rfl
    have htruthy : optionStrTruthy (some "null") = true := rfl
    simp [handleStorageChange, htruthy, hparse]
  · intro ev hbad
    by_cases hc : ev.key = some (getLocalStorageKey key) ∧ optionStrTruthy ev.newValue = true
    · obtain ⟨hck, hct⟩ := hc
      cases hnv : ev.newValue with
      | none =>
          rw [hnv] at hct
          simp [optionStrTruthy] at hct
      | some s =>
          rw [hnv] at hct
          rcases hbad with hb | hb | hb
          · rw [hnv] at hb
            exact Option.noConfusion hb
          · rw [hnv] at hb
            injection hb with hb2
            rw [hb2] at hct
            simp [optionStrTruthy] at hct
          · have hps : safeJsonParse s = none := hb s hnv
            simp [handleStorageChange, hck, hct, hnv, hps]
    · simp [handleStorageChange, hc]

/-- C10 witness: for key `"@user"`, the `"null"` payload is applied and a
malformed payload is dropped. -/
theorem signal_null_payload_applied_witness :
    handleStorageChange "@user" ⟨some (getLocalStorageKey "@user"), some "null"⟩
      ⟨[("@user", some (Value.vInt 1))], ⟨[], false, false, false⟩⟩
      = (⟨[("@user", some Value.vNull)], ⟨[], false, false, false⟩⟩,
         some (some Value.vNull))
  ∧ handleStorageChange "@user" ⟨some (getLocalStorageKey "@user"), some "oops"⟩
      ⟨[("@user", some (Value.vInt 1))], ⟨[], false, false, false⟩⟩
      = (⟨[("@user", some (Value.vInt 1))], ⟨[], false, false, false⟩⟩, none) :=
  ⟨(signal_null_payload_applied
      ⟨[("@user", some (Value.vInt 1))], ⟨[], false, false, false⟩⟩ "@user"
      (by decide)).1,
   (signal_null_payload_applied
      ⟨[("@user", some (Value.vInt 1))], ⟨[], false, false, false⟩⟩ "@user"
      (by decide)).2 ⟨some (getLocalStorageKey "@user"), some "oops"⟩
      (Or.inr (Or.inr (fun s hs => by injection hs with hs2; rw [← hs2]; rfl)))⟩

/-- C9: persistence round-trip. For any value that round-trips through the
serialization format and any persistent key, writing through the adapter
stores the serialized text under the namespaced key (namespace ++ key
without its sentinel character), and a fresh resolution from an empty
cache reads it back equal to the original value. -/
theorem persistence_round_trip (store : DurableStore) (key : String) (v : Value)
    (hp : isPersistentKey key = true)
    (hset : store.setThrows = false) (hget : store.getThrows = false)
    (hrt : safeJsonParse (safeJsonStringify v) = some v) :
    getLocalStorageKey key = localStorageNamespace ++ strDropFirst key
  ∧ List.lookup (getLocalStorageKey key) (storageSet store key (some v)).1.items
      = some (safeJsonStringify v)
  ∧ (getFromMemoryOrStorage ⟨[], (storageSet store key (some v)).1⟩ key none).1
      = some v := by
  have hne : safeJsonStringify v ≠ "" := by
    intro he
    rw [he] at hrt
    have hrt2 : (none : JSVal) = some v := hrt
    exact Option.noConfusion hrt2
  have hitems : List.lookup (getLocalStorageKey key)
      (storageSet store key (some v)).1.items = some (safeJsonStringify v) := by
    simp [storageSet, rawSetItem, hset, serializeForStore, lookup_alistSet]
  have hflag : (storageSet store key (some v)).1.getThrows = false := by
    simp [storageSet, rawSetItem, hset, hget]
  have hsg : storageGet (storageSet store key (some v)).1 key = some v := by
    simp [storageGet, rawGetItem, hflag, hitems, hne, hrt]
  refine ⟨by simp [getLocalStorageKey, hp], hitems, ?_⟩
  simp [getFromMemoryOrStorage, List.lookup, hp, hsg]

/-- C9 witness: `42` written under `"@user"` lands under `"shared@user"`
and reads back from a fresh resolution. -/
theorem persistence_round_trip_witness :
    getLocalStorageKey "@user" = localStorageNamespace ++ strDropFirst "@user"
  ∧ List.lookup (getLocalStorageKey "@user")
      (storageSet ⟨[], false, false, false⟩ "@user" (some (Value.vInt 42))).1.items
      = some (safeJsonStringify (Value.vInt 42))
  ∧ (getFromMemoryOrStorage
      ⟨[], (storageSet ⟨[], false, false, false⟩ "@user" (some (Value.vInt 42))).1⟩
      "@user" none).1 = some (Value.vInt 42) :=
  ⟨(persistence_round_trip ⟨[], false, false, false⟩ "@user" (Value.vInt 42)
      (by decide) rfl rfl rfl).1,
   (persistence_round_trip ⟨[], false, false, false⟩ "@user" (Value.vInt 42)
      (by decide) rfl rfl rfl).2.1,
   (persistence_round_trip ⟨[], false, false, false⟩ "@user" (Value.vInt 42)
      (by decide) rfl rfl rfl).2.2⟩

/-- C6 amended: the registry has no reentrancy guard and no queue — a
subscriber callback that triggers an update of the same key causes the
resulting notification to be delivered inline, nested inside the ongoing
broadcast: for any key, value and cache, notifying a key whose subscriber
updates that same key produces a trace containing a subscriber invocation
at notification depth two. (Deferral can only come from the host
framework's own scheduling inside a callback, not from the engine.) -/
theorem notify_reentrant_inline (k : String) (v : Value)
    (cache0 : List (String × JSVal)) :
    hasNestedInvoke k
      (notifySWR 4 k ⟨[(k, [CbAct.updateKey k v])], cache0⟩).2 0 = true := by
  simp [notifySWR, runCallbacks, List.lookup, hasNestedInvoke]

/-- C6 counterexample: the claim as stated ("callbacks are never invoked
recursively inside another notify for the same key; reentrant updates are
queued to the next tick") is false: with a single subscriber of `"k"` that
updates `"k"`, the broadcast trace is
enter, invoke, enter, invoke, leave, leave — the reentrant notification
runs inline, nested inside the outer one, before the outer notify returns. -/
theorem notify_nested_invoke_example :
    (notifySWR 4 "k" ⟨[("k", [CbAct.updateKey "k" (Value.vInt 1)])], []⟩).2
      = [NEv.enterNotify "k", NEv.invoke "k", NEv.enterNotify "k",
         NEv.invoke "k", NEv.leaveNotify "k", NEv.leaveNotify "k"]
  ∧ hasNestedInvoke "k"
      (notifySWR 4 "k" ⟨[("k", [CbAct.updateKey "k" (Value.vInt 1)])], []⟩).2 0
      = true :=
  ⟨rfl, rfl⟩

end USS
